import Mathlib

/-
Verification development for the prometheus_to_datadog bridge.

The repository contains two versions of the same program:
  * V1 - the yaml/viper-based version (string QueryType, runQuery, startQuerying);
  * V2 - the flag-based version (iota/int QueryType, run_query, Queries.Set).

The embedding models:
  * a result series (model.Sample) as a list of (label, value) pairs - the list
    order stands for the Go map iteration order - together with a rational value
    standing for the float64 sample value (the program never does arithmetic on
    the value; it only forwards it or truncates it to an integer);
  * the backend query API as a function from the query expression and timestamp
    to either an error message or a list of samples;
  * the statsd push client as an oracle mapping each push call to an optional
    error message (none = the call succeeded);
  * the three prometheus outcome counters and the push calls as an ordered
    event trace emitted by the runner;
  * Go errors as a structured error type carrying the data that the Go format
    strings interpolate (message formatting itself is presentation).
-/

/-- One push call made on the statsd client.  The constant sample-rate
argument 1 of the Go calls is omitted.  The Counter case carries the value
truncated to an integer, as in the Go conversion int64(sample.Value). -/
inductive PushCall where
  | gauge (name : String) (value : ℚ) (tags : List String)
  | count (name : String) (value : ℤ) (tags : List String)
  | histogram (name : String) (value : ℚ) (tags : List String)
  | timeInMilliseconds (name : String) (value : ℚ) (tags : List String)
  deriving DecidableEq, Repr

/-- Observable events of one query run, in program order: push-client calls and
increments of the three outcome counters (pushedMetrics, failedQueries,
failedPushedMetrics), each with the label values the Go code passes to
WithLabelValues. -/
inductive Event where
  | push (call : PushCall)
  | incPushed (prometheusName dogstatsdName metricType : String)
  | incFailedQueries (query : String)
  | incFailedPushes (reason : String)
  deriving DecidableEq, Repr

/-- Structured model of the errors a query run can return.  queryFailed carries
the backend error, pushFailed the statsd error; the remaining constructors
correspond to the fmt.Errorf sites (invalid metric name, the set case,
the unknown-type default case). -/
inductive RunError where
  | queryFailed (msg : String)
  | invalidName
  | unsupportedSet
  | unknownType
  | pushFailed (msg : String)
  deriving DecidableEq, Repr

/-- One result series (model.Sample): the label mapping (iteration order fixed
by the list; keys are unique in a Go map) and the numeric value.  The sample
timestamp is never read by the runner and is omitted. -/
structure Sample where
  metric : List (String × String)
  value : ℚ
  deriving DecidableEq, Repr

/-- Character class of Go unicode.IsSpace, used by strings.TrimSpace:
tab, newline, vertical tab, form feed, carriage return, space, NEL, NBSP,
OGHAM SPACE MARK, the U+2000..U+200A spaces, LINE/PARAGRAPH SEPARATOR,
NARROW NBSP, MEDIUM MATHEMATICAL SPACE, IDEOGRAPHIC SPACE. -/
def goIsSpace (c : Char) : Bool :=
  (c.toNat == 9) || (c.toNat == 10) || (c.toNat == 11) || (c.toNat == 12) ||
  (c.toNat == 13) || (c.toNat == 32) || (c.toNat == 0x85) || (c.toNat == 0xA0) ||
  (c.toNat == 0x1680) ||
  (Nat.ble 0x2000 c.toNat && Nat.ble c.toNat 0x200A) ||
  (c.toNat == 0x2028) || (c.toNat == 0x2029) || (c.toNat == 0x202F) ||
  (c.toNat == 0x205F) || (c.toNat == 0x3000)

/-- strings.TrimSpace: drop leading and trailing whitespace characters. -/
def goTrimSpace (s : String) : String :=
  String.mk (((s.toList.dropWhile goIsSpace).reverse.dropWhile goIsSpace).reverse)

/-- Go int64(f) for a float64 value: truncation toward zero, modelled on the
rational sample value. -/
def truncInt (v : ℚ) : ℤ :=
  if v < 0 then -((-v).floor) else v.floor

/-- Body of the label loop of runQuery / run_query: on the reserved label
"__name__" overwrite the name, otherwise append the tag "key:value"
(fmt.Sprintf with verb %s:%s). -/
def labelStep (acc : String × List String) (lv : String × String) : String × List String :=
  if lv.1 = "__name__" then (lv.2, acc.2)
  else (acc.1, acc.2 ++ [lv.1 ++ ":" ++ lv.2])

/-- The label loop of runQuery / run_query: fold labelStep over the series
labels starting from the default name of the query and nil tags. -/
def transformLabels (defaultName : String) (metric : List (String × String)) :
    String × List String :=
  metric.foldl labelStep (defaultName, [])

/-- The resolved metric name of a series: the name produced by the label loop,
trimmed (line name = strings.TrimSpace(name)). -/
def resolveName (defaultName : String) (metric : List (String × String)) : String :=
  goTrimSpace (transformLabels defaultName metric).1

/-- The tag sequence of a series, as built by the label loop. -/
def tagsOf (defaultName : String) (metric : List (String × String)) : List String :=
  (transformLabels defaultName metric).2

/-- The err-assignment plus post-switch error check shared by every push
branch: record the push call, then the unconditional postPushedMetric
increment; if the push client returned an error, also record the
failed-push increment and return the error. -/
def pushStep (c : PushCall) (name metricType : String)
    (pushOk : PushCall → Option String) : Option RunError × List Event :=
  match pushOk c with
  | none => (none, [Event.push c, Event.incPushed name name metricType])
  | some msg =>
      (some (RunError.pushFailed msg),
       [Event.push c, Event.incPushed name name metricType,
        Event.incFailedPushes "failed-push"])

/-- Events that are increments of one of the three outcome counters. -/
def isCounterInc (e : Event) : Bool :=
  match e with
  | Event.push _ => false
  | _ => true

/-- The push calls contained in an event trace, in order. -/
def pushCallsOf (evs : List Event) : List PushCall :=
  evs.filterMap (fun e =>
    match e with
    | Event.push c => some c
    | _ => none)

namespace V1

/-- QueryType of the yaml version: a string type with named constants. -/
abbrev QueryType := String

def Gauge : QueryType := "gauge"

def Counter : QueryType := "counter"

def Histogram : QueryType := "histogram"

def Set : QueryType := "set"

def Milliseconds : QueryType := "milliseconds"

/-- One configured query: type, default metric name, query expression. -/
structure Query where
  type : QueryType
  name : String
  query : String
  deriving DecidableEq, Repr

/-- The push call the dispatcher issues for a given query type (none for the
set and unknown cases, which push nothing). -/
def mkPush (t : QueryType) (name : String) (v : ℚ) (tags : List String) :
    Option PushCall :=
  if t = Gauge then some (PushCall.gauge name v tags)
  else if t = Counter then some (PushCall.count name (truncInt v) tags)
  else if t = Histogram then some (PushCall.histogram name v tags)
  else if t = Milliseconds then some (PushCall.timeInMilliseconds name v tags)
  else none

/-- The metric_type label string passed to postPushedMetric per query type. -/
def metricTypeString (t : QueryType) : String :=
  if t = Gauge then "gauge"
  else if t = Counter then "counter"
  else if t = Histogram then "histogram"
  else if t = Milliseconds then "milliseconds"
  else ""

/-- The body of the sample loop of runQuery: build name and tags from the
labels, trim the name, reject an empty name (counting invalid-name), then the
switch on query.Type with the unconditional postPushedMetric call and the
err check after the switch (pushStep).  Returns the error (if any) and the
events of this iteration. -/
def processSample (q : Query) (pushOk : PushCall → Option String) (s : Sample) :
    Option RunError × List Event :=
  let nt := transformLabels q.name s.metric
  let name := goTrimSpace nt.1
  let tags := nt.2
  if name = "" then
    (some RunError.invalidName, [Event.incFailedPushes "invalid-name"])
  else if q.type = Gauge then
    pushStep (PushCall.gauge name s.value tags) name "gauge" pushOk
  else if q.type = Counter then
    pushStep (PushCall.count name (truncInt s.value) tags) name "counter" pushOk
  else if q.type = Histogram then
    pushStep (PushCall.histogram name s.value tags) name "histogram" pushOk
  else if q.type = Milliseconds then
    pushStep (PushCall.timeInMilliseconds name s.value tags) name "milliseconds" pushOk
  else if q.type = Set then
    (some RunError.unsupportedSet, [])
  else
    (some RunError.unknownType, [])

/-- The sample loop of runQuery: process samples in order, stopping at the
first error; an exhausted loop returns nil (the last err is nil because a
non-nil err returns inside the loop). -/
def runSamples (q : Query) (pushOk : PushCall → Option String) :
    List Sample → Except RunError Unit × List Event
  | [] => (Except.ok (), [])
  | s :: rest =>
      match processSample q pushOk s with
      | (some e, evs) => (Except.error e, evs)
      | (none, evs) =>
          let r := runSamples q pushOk rest
          (r.1, evs ++ r.2)

/-- runQuery: execute the backend query; on error increment failedQueries
(labeled by the raw query expression) and return the error; otherwise iterate
the result vector. -/
def runQuery (q : Query) (api : String → Nat → Except String (List Sample))
    (when : Nat) (pushOk : PushCall → Option String) :
    Except RunError Unit × List Event :=
  match api q.query when with
  | Except.error e =>
      (Except.error (RunError.queryFailed e), [Event.incFailedQueries q.query])
  | Except.ok results => runSamples q pushOk results

/-- One tick of the startQuerying loop: run every configured query in
configuration order.  The Go loop discards each runQuery error and continues
with the next query; the model returns the per-query outcomes so that they
can be observed. -/
def startQuerying (queries : List Query)
    (api : String → Nat → Except String (List Sample)) (when : Nat)
    (pushOk : PushCall → Option String) :
    List (Except RunError Unit × List Event) :=
  queries.map (fun q => runQuery q api when pushOk)

end V1

namespace V2

/-- QueryType of the flag version: an int with iota constants. -/
abbrev QueryType := Int

def Gauge : QueryType := 0

def Counter : QueryType := 1

def Histogram : QueryType := 2

def Set : QueryType := 3

def Milliseconds : QueryType := 4

/-- One configured query of the flag version. -/
structure Query where
  type : QueryType
  name : String
  query : String
  deriving DecidableEq, Repr

/-- Configuration-load errors of the Queries Set flag parser, structured like
RunError: setUnsupported models the descriptive refusal of set-typed queries,
unknownType the default case (carrying the metric type and the raw flag value
the Go message interpolates). -/
inductive ConfigError where
  | setUnsupported
  | unknownType (metricType value : String)
  deriving DecidableEq, Repr

/-- The query list built up by repeated flag parsing. -/
abbrev Queries := List Query

/-- Split a character list at the first colon, if any (helper for the model of
strings.SplitN(value, ":", 3)). -/
def breakColon : List Char → List Char × Option (List Char)
  | [] => ([], none)
  | c :: cs =>
      if c = ':' then ([], some cs)
      else
        let r := breakColon cs
        (c :: r.1, r.2)

/-- strings.SplitN(s, ":", 3): at most three parts, the last part keeping any
remaining colons. -/
def splitNColon3 (s : String) : List String :=
  match breakColon s.toList with
  | (a, none) => [String.mk a]
  | (a, some r1) =>
      match breakColon r1 with
      | (b, none) => [String.mk a, String.mk b]
      | (b, some r2) => [String.mk a, String.mk b, String.mk r2]

/-- The Set method of the Queries flag: split the flag value into
type:name:query, switch on the type string (rejecting "set" with a
descriptive error and anything unrecognized with the default error), and
append the parsed query.  Accessing parts[1] or parts[2] with fewer than
three parts panics in Go; the model returns none there. -/
def Queries.Set (flags : Queries) (value : String) :
    Option (Except ConfigError Queries) :=
  match splitNColon3 value with
  | [metricType, metricName, prometheusQuery] =>
      some
        (if metricType = "gauge" then
          Except.ok (flags ++ [{ type := Gauge, name := metricName, query := prometheusQuery }])
        else if metricType = "counter" then
          Except.ok (flags ++ [{ type := Counter, name := metricName, query := prometheusQuery }])
        else if metricType = "histogram" then
          Except.ok (flags ++ [{ type := Histogram, name := metricName, query := prometheusQuery }])
        else if metricType = "set" then
          Except.error ConfigError.setUnsupported
        else if metricType = "milliseconds" then
          Except.ok (flags ++ [{ type := Milliseconds, name := metricName, query := prometheusQuery }])
        else
          Except.error (ConfigError.unknownType metricType value))
  | _ => none

/-- The body of the sample loop of run_query.  Identical to the V1 loop body
except for the switch on the int query type, which has no set case: the
default case catches Set and every other value ("Can't handle %g" in Go,
modelled as unknownType). -/
def processSample (q : Query) (pushOk : PushCall → Option String) (s : Sample) :
    Option RunError × List Event :=
  let nt := transformLabels q.name s.metric
  let name := goTrimSpace nt.1
  let tags := nt.2
  if name = "" then
    (some RunError.invalidName, [Event.incFailedPushes "invalid-name"])
  else if q.type = Gauge then
    pushStep (PushCall.gauge name s.value tags) name "gauge" pushOk
  else if q.type = Counter then
    pushStep (PushCall.count name (truncInt s.value) tags) name "counter" pushOk
  else if q.type = Histogram then
    pushStep (PushCall.histogram name s.value tags) name "histogram" pushOk
  else if q.type = Milliseconds then
    pushStep (PushCall.timeInMilliseconds name s.value tags) name "milliseconds" pushOk
  else
    (some RunError.unknownType, [])

/-- The sample loop of run_query, identical in structure to the V1 loop. -/
def runSamples (q : Query) (pushOk : PushCall → Option String) :
    List Sample → Except RunError Unit × List Event
  | [] => (Except.ok (), [])
  | s :: rest =>
      match processSample q pushOk s with
      | (some e, evs) => (Except.error e, evs)
      | (none, evs) =>
          let r := runSamples q pushOk rest
          (r.1, evs ++ r.2)

/-- run_query: same structure as V1.runQuery. -/
def run_query (q : Query) (api : String → Nat → Except String (List Sample))
    (when : Nat) (pushOk : PushCall → Option String) :
    Except RunError Unit × List Event :=
  match api q.query when with
  | Except.error e =>
      (Except.error (RunError.queryFailed e), [Event.incFailedQueries q.query])
  | Except.ok results => runSamples q pushOk results

end V2

/-- The tag component of the label loop: tags already collected are kept and
each non-reserved label appends its "key:value" rendering, in order. -/
theorem labelFold_snd (m : List (String × String)) :
    ∀ (n : String) (acc : List String),
      (m.foldl labelStep (n, acc)).2
        = acc ++ (m.filter fun lv => lv.1 ≠ "__name__").map (fun lv => lv.1 ++ ":" ++ lv.2) := by
  induction m with
  | nil => intro n acc; simp
  | cons lv m ih =>
      intro n acc
      by_cases h : lv.1 = "__name__"
      · simp [labelStep, h, ih]
      · simp [labelStep, h, ih]

/-- If the reserved label is absent, the label loop leaves the name at its
initial value. -/
theorem labelFold_fst_absent (m : List (String × String)) :
    ∀ (n : String) (acc : List String), "__name__" ∉ m.map Prod.fst →
      (m.foldl labelStep (n, acc)).1 = n := by
  induction m with
  | nil => intro n acc _; rfl
  | cons lv m ih =>
      intro n acc h
      rw [List.map_cons, List.mem_cons] at h
      push_neg at h
      have h1 : ¬ lv.1 = "__name__" := fun e => h.1 e.symm
      simp only [List.foldl_cons, labelStep, if_neg h1]
      exact ih n (acc ++ [lv.1 ++ ":" ++ lv.2]) h.2

/-- If the reserved label is present (keys unique), the label loop ends with
its value as the name. -/
theorem labelFold_fst_found (m : List (String × String)) :
    ∀ (n : String) (acc : List String) (v : String), (m.map Prod.fst).Nodup →
      ("__name__", v) ∈ m → (m.foldl labelStep (n, acc)).1 = v := by
  induction m with
  | nil => intro n acc v _ hmem; simp at hmem
  | cons lv m ih =>
      intro n acc v hnd hmem
      rw [List.map_cons, List.nodup_cons] at hnd
      rcases List.mem_cons.mp hmem with heq | hmem2
      · have hlv : lv = ("__name__", v) := heq.symm
        subst hlv
        simp only [List.foldl_cons, labelStep, if_pos rfl]
        exact labelFold_fst_absent m v acc hnd.1
      · have hk : "__name__" ∈ m.map Prod.fst :=
          List.mem_map.mpr ⟨("__name__", v), hmem2, rfl⟩
        have h1 : ¬ lv.1 = "__name__" := fun e => hnd.1 (e ▸ hk)
        simp only [List.foldl_cons, labelStep, if_neg h1]
        exact ih n (acc ++ [lv.1 ++ ":" ++ lv.2]) v hnd.2 hmem2

/-- pushStep either succeeds with the push and the pushed-metrics increment,
or fails with those two events plus the failed-push increment. -/
theorem pushStep_cases (c : PushCall) (n t : String) (pushOk : PushCall → Option String) :
    pushStep c n t pushOk = (none, [Event.push c, Event.incPushed n n t])
    ∨ ∃ m, pushStep c n t pushOk
        = (some (RunError.pushFailed m),
           [Event.push c, Event.incPushed n n t, Event.incFailedPushes "failed-push"]) := by
  unfold pushStep
  cases h : pushOk c
  · exact Or.inl rfl
  · exact Or.inr ⟨_, rfl⟩

/-- Sample-loop equation: a sample whose processing errors stops the loop with
exactly that iteration's events. -/
theorem v1_runSamples_cons_some {q : V1.Query} {pushOk : PushCall → Option String}
    {s : Sample} {e : RunError} {evs : List Event}
    (h : V1.processSample q pushOk s = (some e, evs)) (rest : List Sample) :
    V1.runSamples q pushOk (s :: rest) = (Except.error e, evs) := by
  simp [V1.runSamples, h]

/-- Sample-loop equation: a successfully processed sample contributes its
events and the loop continues. -/
theorem v1_runSamples_cons_none {q : V1.Query} {pushOk : PushCall → Option String}
    {s : Sample} {evs : List Event}
    (h : V1.processSample q pushOk s = (none, evs)) (rest : List Sample) :
    V1.runSamples q pushOk (s :: rest)
      = ((V1.runSamples q pushOk rest).1, evs ++ (V1.runSamples q pushOk rest).2) := by
  simp [V1.runSamples, h]

/-- A prefix of samples that all succeed only prepends its events to the
outcome of the remaining samples. -/
theorem v1_runSamples_append {q : V1.Query} {pushOk : PushCall → Option String}
    (l2 : List Sample) :
    ∀ (l1 : List Sample) (evs1 : List Event),
      V1.runSamples q pushOk l1 = (Except.ok (), evs1) →
      V1.runSamples q pushOk (l1 ++ l2)
        = ((V1.runSamples q pushOk l2).1, evs1 ++ (V1.runSamples q pushOk l2).2) := by
  intro l1
  induction l1 with
  | nil =>
      intro evs1 h
      have h2 : evs1 = [] := by
        have := congrArg Prod.snd h
        simpa [V1.runSamples] using this.symm
      subst h2
      rfl
  | cons s l1 ih =>
      intro evs1 h
      rcases hps : V1.processSample q pushOk s with ⟨oe, evs0⟩
      cases oe with
      | some e =>
          rw [v1_runSamples_cons_some hps] at h
          exact absurd (congrArg Prod.fst h) (by simp)
      | none =>
          rw [v1_runSamples_cons_none hps] at h
          have h1 : (V1.runSamples q pushOk l1).1 = Except.ok () := congrArg Prod.fst h
          have h2 : evs1 = evs0 ++ (V1.runSamples q pushOk l1).2 := (congrArg Prod.snd h).symm
          have h3 : V1.runSamples q pushOk l1 = (Except.ok (), (V1.runSamples q pushOk l1).2) :=
            Prod.ext h1 rfl
          rw [List.cons_append, v1_runSamples_cons_none hps (l1 ++ l2),
            ih (V1.runSamples q pushOk l1).2 h3, h2, List.append_assoc]

/-- A series whose resolved name trims to empty is rejected before any
dispatch, with exactly the invalid-name increment. -/
theorem v1_processSample_invalid {q : V1.Query} {pushOk : PushCall → Option String}
    {s : Sample} (h : resolveName q.name s.metric = "") :
    V1.processSample q pushOk s
      = (some RunError.invalidName, [Event.incFailedPushes "invalid-name"]) := by
  have h2 : goTrimSpace (transformLabels q.name s.metric).1 = "" := h
  simp [V1.processSample, h2]

/-- A series with a nonempty resolved name and a supported query type is
dispatched through pushStep with the push call mkPush describes and the
metric-type label string of the type. -/
theorem v1_processSample_push {q : V1.Query} {pushOk : PushCall → Option String}
    {s : Sample} {c : PushCall}
    (hn : ¬ resolveName q.name s.metric = "")
    (hc : V1.mkPush q.type (resolveName q.name s.metric) s.value (tagsOf q.name s.metric)
        = some c) :
    V1.processSample q pushOk s
      = pushStep c (resolveName q.name s.metric) (V1.metricTypeString q.type) pushOk := by
  have hn2 : ¬ goTrimSpace (transformLabels q.name s.metric).1 = "" := hn
  unfold V1.mkPush at hc
  unfold V1.processSample V1.metricTypeString
  by_cases h1 : q.type = V1.Gauge
  · rw [if_pos h1] at hc
    injection hc with hc2
    simp only [if_neg hn2, if_pos h1, ← hc2]
    rfl
  · rw [if_neg h1] at hc
    by_cases h2 : q.type = V1.Counter
    · rw [if_pos h2] at hc
      injection hc with hc2
      simp only [if_neg hn2, if_neg h1, if_pos h2, ← hc2]
      rfl
    · rw [if_neg h2] at hc
      by_cases h3 : q.type = V1.Histogram
      · rw [if_pos h3] at hc
        injection hc with hc2
        simp only [if_neg hn2, if_neg h1, if_neg h2, if_pos h3, ← hc2]
        rfl
      · rw [if_neg h3] at hc
        by_cases h4 : q.type = V1.Milliseconds
        · rw [if_pos h4] at hc
          injection hc with hc2
          simp only [if_neg hn2, if_neg h1, if_neg h2, if_neg h3, if_pos h4, ← hc2]
          rfl
        · rw [if_neg h4] at hc
          exact absurd hc (by simp)

/-- A set-typed query with a nonempty resolved name errors with no events. -/
theorem v1_processSample_set {q : V1.Query} {pushOk : PushCall → Option String}
    {s : Sample} (hn : ¬ resolveName q.name s.metric = "") (ht : q.type = V1.Set) :
    V1.processSample q pushOk s = (some RunError.unsupportedSet, []) := by
  have hn2 : ¬ goTrimSpace (transformLabels q.name s.metric).1 = "" := hn
  have h1 : ¬ q.type = V1.Gauge := by rw [ht]; decide
  have h2 : ¬ q.type = V1.Counter := by rw [ht]; decide
  have h3 : ¬ q.type = V1.Histogram := by rw [ht]; decide
  have h4 : ¬ q.type = V1.Milliseconds := by rw [ht]; decide
  unfold V1.processSample
  simp only [if_neg hn2, if_neg h1, if_neg h2, if_neg h3, if_neg h4, if_pos ht]

/-- An unrecognized query type with a nonempty resolved name errors with no
events. -/
theorem v1_processSample_unknown {q : V1.Query} {pushOk : PushCall → Option String}
    {s : Sample} (hn : ¬ resolveName q.name s.metric = "")
    (h1 : ¬ q.type = V1.Gauge) (h2 : ¬ q.type = V1.Counter)
    (h3 : ¬ q.type = V1.Histogram) (h4 : ¬ q.type = V1.Milliseconds)
    (h5 : ¬ q.type = V1.Set) :
    V1.processSample q pushOk s = (some RunError.unknownType, []) := by
  have hn2 : ¬ goTrimSpace (transformLabels q.name s.metric).1 = "" := hn
  unfold V1.processSample
  simp only [if_neg hn2, if_neg h1, if_neg h2, if_neg h3, if_neg h4, if_neg h5]

/-- mkPush yields no call exactly off the four supported types. -/
theorem v1_mkPush_none {t : V1.QueryType} {n : String} {v : ℚ} {tags : List String}
    (h : V1.mkPush t n v tags = none) :
    ¬ t = V1.Gauge ∧ ¬ t = V1.Counter ∧ ¬ t = V1.Histogram ∧ ¬ t = V1.Milliseconds := by
  unfold V1.mkPush at h
  split_ifs at h with h1 h2 h3 h4
  exact ⟨h1, h2, h3, h4⟩

/-- Every sample-loop iteration has one of five shapes: invalid-name, set
rejection, unknown-type rejection, successful push, failed push. -/
theorem v1_processSample_shape (q : V1.Query) (pushOk : PushCall → Option String)
    (s : Sample) :
    V1.processSample q pushOk s
        = (some RunError.invalidName, [Event.incFailedPushes "invalid-name"])
    ∨ V1.processSample q pushOk s = (some RunError.unsupportedSet, [])
    ∨ V1.processSample q pushOk s = (some RunError.unknownType, [])
    ∨ (∃ c n t, V1.processSample q pushOk s = (none, [Event.push c, Event.incPushed n n t]))
    ∨ (∃ c n t m, V1.processSample q pushOk s
        = (some (RunError.pushFailed m),
           [Event.push c, Event.incPushed n n t, Event.incFailedPushes "failed-push"])) := by
  by_cases hn : resolveName q.name s.metric = ""
  · exact Or.inl (v1_processSample_invalid hn)
  · cases hc : V1.mkPush q.type (resolveName q.name s.metric) s.value (tagsOf q.name s.metric) with
    | some c =>
        have hp := @v1_processSample_push q pushOk s c hn hc
        rcases pushStep_cases c (resolveName q.name s.metric) (V1.metricTypeString q.type)
            pushOk with h | ⟨m, h⟩
        · exact Or.inr (Or.inr (Or.inr (Or.inl ⟨c, _, _, hp.trans h⟩)))
        · exact Or.inr (Or.inr (Or.inr (Or.inr ⟨c, _, _, m, hp.trans h⟩)))
    | none =>
        obtain ⟨h1, h2, h3, h4⟩ := v1_mkPush_none hc
        by_cases h5 : q.type = V1.Set
        · exact Or.inr (Or.inl (v1_processSample_set hn h5))
        · exact Or.inr (Or.inr (Or.inl (v1_processSample_unknown hn h1 h2 h3 h4 h5)))

/-- A successfully processed sample implies the query type is one of the four
supported types. -/
theorem v1_processSample_none_supported {q : V1.Query} {pushOk : PushCall → Option String}
    {s : Sample} {evs : List Event}
    (h : V1.processSample q pushOk s = (none, evs)) :
    q.type = V1.Gauge ∨ q.type = V1.Counter ∨ q.type = V1.Histogram
      ∨ q.type = V1.Milliseconds := by
  by_contra hne
  push_neg at hne
  obtain ⟨h1, h2, h3, h4⟩ := hne
  by_cases hn : resolveName q.name s.metric = ""
  · rw [v1_processSample_invalid hn] at h
    exact Option.noConfusion (congrArg Prod.fst h)
  · have hmk : V1.mkPush q.type (resolveName q.name s.metric) s.value (tagsOf q.name s.metric)
        = none := by
      unfold V1.mkPush
      simp [h1, h2, h3, h4]
    by_cases h5 : q.type = V1.Set
    · rw [v1_processSample_set hn h5] at h
      exact Option.noConfusion (congrArg Prod.fst h)
    · rw [v1_processSample_unknown hn h1 h2 h3 h4 h5] at h
      exact Option.noConfusion (congrArg Prod.fst h)

/-- A query of one of the four supported types never produces the set or
unknown-type error on any sample. -/
theorem v1_processSample_supported {q : V1.Query} {pushOk : PushCall → Option String}
    (hsup : q.type = V1.Gauge ∨ q.type = V1.Counter ∨ q.type = V1.Histogram
      ∨ q.type = V1.Milliseconds) (s : Sample) :
    (V1.processSample q pushOk s).1 ≠ some RunError.unsupportedSet
    ∧ (V1.processSample q pushOk s).1 ≠ some RunError.unknownType := by
  by_cases hn : resolveName q.name s.metric = ""
  · rw [@v1_processSample_invalid q pushOk s hn]
    exact ⟨by simp, by simp⟩
  · have hmk : ∃ c, V1.mkPush q.type (resolveName q.name s.metric) s.value
        (tagsOf q.name s.metric) = some c := by
      rcases hsup with h1 | h1 | h1 | h1 <;> rw [h1] <;> exact ⟨_, rfl⟩
    obtain ⟨c, hc⟩ := hmk
    rw [v1_processSample_push hn hc]
    rcases pushStep_cases c (resolveName q.name s.metric) (V1.metricTypeString q.type)
        pushOk with h2 | ⟨m, h2⟩ <;> rw [h2] <;> exact ⟨by simp, by simp⟩

/-- The sample loop of a query of a supported type never returns the set or
unknown-type error. -/
theorem v1_runSamples_supported {q : V1.Query} {pushOk : PushCall → Option String}
    (hsup : q.type = V1.Gauge ∨ q.type = V1.Counter ∨ q.type = V1.Histogram
      ∨ q.type = V1.Milliseconds) :
    ∀ (l : List Sample) (err : RunError) (evs : List Event),
      V1.runSamples q pushOk l = (Except.error err, evs) →
      err ≠ RunError.unsupportedSet ∧ err ≠ RunError.unknownType := by
  intro l
  induction l with
  | nil =>
      intro err evs h
      exact absurd (congrArg Prod.fst h) (by simp [V1.runSamples])
  | cons s rest ih =>
      intro err evs h
      rcases hps : V1.processSample q pushOk s with ⟨oe, evs0⟩
      cases oe with
      | some e =>
          rw [v1_runSamples_cons_some hps] at h
          have he : e = err := Except.error.inj (congrArg Prod.fst h)
          have h2 := @v1_processSample_supported q pushOk hsup s
          rw [hps] at h2
          subst he
          exact ⟨fun hx => h2.1 (by rw [hx]), fun hx => h2.2 (by rw [hx])⟩
      | none =>
          rw [v1_runSamples_cons_none hps] at h
          have h1 : (V1.runSamples q pushOk rest).1 = Except.error err := congrArg Prod.fst h
          exact ih err (V1.runSamples q pushOk rest).2 (Prod.ext h1 rfl)

/-- In the sample loop, an error outcome carries no counter increment exactly
when it is the set or unknown-type error. -/
theorem v1_runSamples_counted {q : V1.Query} {pushOk : PushCall → Option String} :
    ∀ (l : List Sample) (err : RunError) (evs : List Event),
      V1.runSamples q pushOk l = (Except.error err, evs) →
      ((err = RunError.unsupportedSet ∨ err = RunError.unknownType)
        ↔ evs.filter isCounterInc = []) := by
  intro l
  induction l with
  | nil =>
      intro err evs h
      exact absurd (congrArg Prod.fst h) (by simp [V1.runSamples])
  | cons s rest ih =>
      intro err evs h
      rcases v1_processSample_shape q pushOk s with hps | hps | hps | ⟨c, n, t, hps⟩
        | ⟨c, n, t, m, hps⟩
      · rw [v1_runSamples_cons_some hps] at h
        have he : RunError.invalidName = err := Except.error.inj (congrArg Prod.fst h)
        have hevs : [Event.incFailedPushes "invalid-name"] = evs := congrArg Prod.snd h
        subst he
        rw [← hevs]
        simp [isCounterInc]
      · rw [v1_runSamples_cons_some hps] at h
        have he : RunError.unsupportedSet = err := Except.error.inj (congrArg Prod.fst h)
        have hevs : ([] : List Event) = evs := congrArg Prod.snd h
        subst he
        rw [← hevs]
        simp
      · rw [v1_runSamples_cons_some hps] at h
        have he : RunError.unknownType = err := Except.error.inj (congrArg Prod.fst h)
        have hevs : ([] : List Event) = evs := congrArg Prod.snd h
        subst he
        rw [← hevs]
        simp
      · rw [v1_runSamples_cons_none hps] at h
        have h1 : (V1.runSamples q pushOk rest).1 = Except.error err := congrArg Prod.fst h
        have hsup := v1_processSample_none_supported hps
        have hne := v1_runSamples_supported hsup rest err (V1.runSamples q pushOk rest).2
          (Prod.ext h1 rfl)
        have hevs : [Event.push c, Event.incPushed n n t]
            ++ (V1.runSamples q pushOk rest).2 = evs := congrArg Prod.snd h
        constructor
        · intro hx
          rcases hx with hx | hx
          · exact absurd hx hne.1
          · exact absurd hx hne.2
        · intro hx
          exfalso
          rw [← hevs] at hx
          simp [isCounterInc] at hx
      · rw [v1_runSamples_cons_some hps] at h
        have he : RunError.pushFailed m = err := Except.error.inj (congrArg Prod.fst h)
        have hevs : [Event.push c, Event.incPushed n n t, Event.incFailedPushes "failed-push"]
            = evs := congrArg Prod.snd h
        subst he
        rw [← hevs]
        constructor
        · intro hx
          rcases hx with hx | hx <;> exact RunError.noConfusion hx
        · intro hx
          simp [isCounterInc] at hx

/-- The two sample-loop bodies agree on gauge-typed queries. -/
theorem v10_processSample_gauge (n qs : String) (pushOk : PushCall → Option String)
    (s : Sample) :
    V1.processSample ⟨V1.Gauge, n, qs⟩ pushOk s
      = V2.processSample ⟨V2.Gauge, n, qs⟩ pushOk s :=
  rfl

/-- The two sample-loop bodies agree on counter-typed queries. -/
theorem v10_processSample_counter (n qs : String) (pushOk : PushCall → Option String)
    (s : Sample) :
    V1.processSample ⟨V1.Counter, n, qs⟩ pushOk s
      = V2.processSample ⟨V2.Counter, n, qs⟩ pushOk s :=
  rfl

/-- The two sample-loop bodies agree on histogram-typed queries. -/
theorem v10_processSample_histogram (n qs : String) (pushOk : PushCall → Option String)
    (s : Sample) :
    V1.processSample ⟨V1.Histogram, n, qs⟩ pushOk s
      = V2.processSample ⟨V2.Histogram, n, qs⟩ pushOk s :=
  rfl

/-- The two sample-loop bodies agree on milliseconds-typed queries. -/
theorem v10_processSample_milliseconds (n qs : String) (pushOk : PushCall → Option String)
    (s : Sample) :
    V1.processSample ⟨V1.Milliseconds, n, qs⟩ pushOk s
      = V2.processSample ⟨V2.Milliseconds, n, qs⟩ pushOk s :=
  rfl

/-- If the two loop bodies agree pointwise for two queries, the two sample
loops agree on every sample list. -/
theorem v10_runSamples_eq {q1 : V1.Query} {q2 : V2.Query} {pushOk : PushCall → Option String}
    (h : ∀ s, V1.processSample q1 pushOk s = V2.processSample q2 pushOk s) :
    ∀ l, V1.runSamples q1 pushOk l = V2.runSamples q2 pushOk l := by
  intro l
  induction l with
  | nil => rfl
  | cons s rest ih =>
      show (match V1.processSample q1 pushOk s with
        | (some e, evs) => (Except.error e, evs)
        | (none, evs) =>
            let r := V1.runSamples q1 pushOk rest
            (r.1, evs ++ r.2)) = _
      rw [h s, ih]
      rfl

/-- If the two loop bodies agree pointwise and the query expressions match,
runQuery and run_query agree on every backend and push client. -/
theorem v10_run_query_eq {q1 : V1.Query} {q2 : V2.Query} {pushOk : PushCall → Option String}
    (hq : q1.query = q2.query)
    (h : ∀ s, V1.processSample q1 pushOk s = V2.processSample q2 pushOk s)
    (api : String → Nat → Except String (List Sample)) (when : Nat) :
    V1.runQuery q1 api when pushOk = V2.run_query q2 api when pushOk := by
  unfold V1.runQuery V2.run_query
  rw [hq]
  cases api q2.query when with
  | error e => rfl
  | ok results => exact v10_runSamples_eq h results

/-- A character list containing a colon splits into a part before and after
the first colon. -/
theorem breakColon_some {l : List Char} (h : ':' ∈ l) :
    ∃ a b, V2.breakColon l = (a, some b) := by
  induction l with
  | nil => simp at h
  | cons c cs ih =>
      by_cases hc : c = ':'
      · exact ⟨[], cs, by simp [V2.breakColon, hc]⟩
      · have h2 : ':' ∈ cs := by
          rcases List.mem_cons.mp h with h3 | h3
          · exact absurd h3.symm hc
          · exact h3
        obtain ⟨a, b, hab⟩ := ih h2
        exact ⟨c :: a, b, by simp [V2.breakColon, hc, hab]⟩

/-- C2: for every series and owning query with unique label keys, the tag
sequence is exactly one "key:value" rendering per non-reserved label in
iteration order (so the reserved label never contributes a tag), each
non-reserved label appears among the tags, and the resolved name is the
trimmed value of the reserved "__name__" label when present, otherwise the
trimmed default name of the query. -/
theorem C2_transformer (q : V1.Query) (m : List (String × String))
    (hk : (m.map Prod.fst).Nodup) :
    tagsOf q.name m
        = (m.filter fun lv => lv.1 ≠ "__name__").map (fun lv => lv.1 ++ ":" ++ lv.2)
    ∧ (∀ k v, (k, v) ∈ m → k ≠ "__name__" → (k ++ ":" ++ v) ∈ tagsOf q.name m)
    ∧ (∀ v, ("__name__", v) ∈ m → resolveName q.name m = goTrimSpace v)
    ∧ ("__name__" ∉ m.map Prod.fst → resolveName q.name m = goTrimSpace q.name) := by
  have ht : tagsOf q.name m
      = (m.filter fun lv => lv.1 ≠ "__name__").map (fun lv => lv.1 ++ ":" ++ lv.2) := by
    unfold tagsOf transformLabels
    simpa using labelFold_snd m q.name []
  refine ⟨ht, ?_, ?_, ?_⟩
  · intro k v hm hk2
    rw [ht]
    exact List.mem_map.mpr ⟨(k, v), List.mem_filter.mpr ⟨hm, by simpa using hk2⟩, rfl⟩
  · intro v hm
    unfold resolveName transformLabels
    rw [labelFold_fst_found m q.name [] v hk hm]
  · intro habs
    unfold resolveName transformLabels
    rw [labelFold_fst_absent m q.name [] habs]

/-- C2 witness: on labels {__name__: up, instance: a:9090} with default name
fallback, the resolved name is "up". -/
theorem C2_transformer_witness :
    resolveName "fallback" [("__name__", "up"), ("instance", "a:9090")] = "up" :=
  Eq.trans
    ((C2_transformer ⟨V1.Gauge, "fallback", "up"⟩
        [("__name__", "up"), ("instance", "a:9090")] (by decide)).2.2.1 "up" (by decide))
    rfl

/-- C3: a series whose resolved name is empty after trimming (the samples
before it all succeeding) causes zero push calls for that series, exactly one
failed-push increment with reason invalid-name, and an error that abandons the
remaining series of that tick of the query. -/
theorem C3_invalid_name (q : V1.Query) (api : String → Nat → Except String (List Sample))
    (when : Nat) (pushOk : PushCall → Option String) (pre : List Sample)
    (evs1 : List Event) (s : Sample) (rest : List Sample)
    (hname : resolveName q.name s.metric = "")
    (hpre : V1.runSamples q pushOk pre = (Except.ok (), evs1))
    (hapi : api q.query when = Except.ok (pre ++ s :: rest)) :
    V1.runQuery q api when pushOk
      = (Except.error RunError.invalidName,
         evs1 ++ [Event.incFailedPushes "invalid-name"]) := by
  unfold V1.runQuery
  rw [hapi]
  show V1.runSamples q pushOk (pre ++ s :: rest) = _
  rw [v1_runSamples_append (s :: rest) pre evs1 hpre,
    v1_runSamples_cons_some (v1_processSample_invalid hname) rest]

/-- C3 witness: a series whose only label sets the name to a blank string. -/
theorem C3_invalid_name_witness :
    V1.runQuery ⟨V1.Gauge, "fallback", "up"⟩
        (fun _ _ => Except.ok [⟨[("__name__", " ")], 1⟩, ⟨[], 2⟩]) 0 (fun _ => none)
      = (Except.error RunError.invalidName, [Event.incFailedPushes "invalid-name"]) :=
  C3_invalid_name ⟨V1.Gauge, "fallback", "up"⟩
    (fun _ _ => Except.ok [⟨[("__name__", " ")], 1⟩, ⟨[], 2⟩]) 0 (fun _ => none)
    [] [] ⟨[("__name__", " ")], 1⟩ [⟨[], 2⟩] rfl rfl rfl

/-- C6: a failing backend call increments the failed-queries counter labeled
with the raw query expression exactly once, returns the error, and performs no
transformation or push (no other event). -/
theorem C6_backend_failure (q : V1.Query) (api : String → Nat → Except String (List Sample))
    (when : Nat) (pushOk : PushCall → Option String) (e : String)
    (h : api q.query when = Except.error e) :
    V1.runQuery q api when pushOk
      = (Except.error (RunError.queryFailed e), [Event.incFailedQueries q.query]) := by
  unfold V1.runQuery
  rw [h]

/-- C6 witness: a backend that always fails. -/
theorem C6_backend_failure_witness :
    V1.runQuery ⟨V1.Gauge, "m", "up"⟩ (fun _ _ => Except.error "down") 0 (fun _ => none)
      = (Except.error (RunError.queryFailed "down"), [Event.incFailedQueries "up"]) :=
  C6_backend_failure ⟨V1.Gauge, "m", "up"⟩ (fun _ _ => Except.error "down") 0
    (fun _ => none) "down" rfl

/-- C9: a "__name__" label whose value trims to empty overrides the default
name before trimming, so the run ends with the invalid-name error even though
the default name of the query is nonempty - the default is not restored. -/
theorem C9_name_override (q : V1.Query) (api : String → Nat → Except String (List Sample))
    (when : Nat) (pushOk : PushCall → Option String) (v : String)
    (m : List (String × String)) (val : ℚ) (rest : List Sample)
    (hk : (m.map Prod.fst).Nodup) (hmem : ("__name__", v) ∈ m)
    (hv : goTrimSpace v = "") (_hdefault : goTrimSpace q.name ≠ "")
    (hapi : api q.query when = Except.ok (⟨m, val⟩ :: rest)) :
    V1.runQuery q api when pushOk
      = (Except.error RunError.invalidName, [Event.incFailedPushes "invalid-name"]) := by
  have hname : resolveName q.name m = "" := by
    unfold resolveName transformLabels
    rw [labelFold_fst_found m q.name [] v hk hmem, hv]
  unfold V1.runQuery
  rw [hapi]
  show V1.runSamples q pushOk (⟨m, val⟩ :: rest) = _
  rw [v1_runSamples_cons_some (v1_processSample_invalid hname) rest]

/-- C9 witness: default name "fallback" is nonempty, yet a blank "__name__"
value forces the invalid-name error. -/
theorem C9_name_override_witness :
    V1.runQuery ⟨V1.Gauge, "fallback", "up"⟩
        (fun _ _ => Except.ok [⟨[("__name__", "  ")], 1⟩]) 0 (fun _ => none)
      = (Except.error RunError.invalidName, [Event.incFailedPushes "invalid-name"]) :=
  C9_name_override ⟨V1.Gauge, "fallback", "up"⟩
    (fun _ _ => Except.ok [⟨[("__name__", "  ")], 1⟩]) 0 (fun _ => none)
    "  " [("__name__", "  ")] 1 [] (by decide) (by decide) rfl (by decide) rfl

/-- C8: the per-tick loop runs every configured query in configuration order
regardless of the outcomes of its siblings (splitting around any query shows
it is executed whatever happened before it), and within one query the first
erroring series aborts the remaining series of that tick. -/
theorem C8_tick_isolation (qs1 qs2 : List V1.Query) (q : V1.Query)
    (api : String → Nat → Except String (List Sample)) (when : Nat)
    (pushOk : PushCall → Option String) :
    V1.startQuerying (qs1 ++ q :: qs2) api when pushOk
        = V1.startQuerying qs1 api when pushOk
            ++ V1.runQuery q api when pushOk :: V1.startQuerying qs2 api when pushOk
    ∧ ∀ (q2 : V1.Query) (s : Sample) (rest : List Sample) (e : RunError) (evs : List Event),
        V1.processSample q2 pushOk s = (some e, evs) →
        V1.runSamples q2 pushOk (s :: rest) = (Except.error e, evs) := by
  constructor
  · unfold V1.startQuerying
    rw [List.map_append, List.map_cons]
  · intro q2 s rest e evs h
    exact v1_runSamples_cons_some h rest

/-- C8 witness: a set-typed query aborts its own remaining series at the first
sample while the tick still ran the query that follows a failing one. -/
theorem C8_tick_isolation_witness :
    V1.runSamples ⟨V1.Set, "n", "q0"⟩ (fun _ => none) [⟨[], 1⟩, ⟨[], 2⟩]
      = (Except.error RunError.unsupportedSet, []) :=
  (C8_tick_isolation [] [] ⟨V1.Set, "n", "q0"⟩ (fun _ _ => Except.ok []) 0 (fun _ => none)).2
    ⟨V1.Set, "n", "q0"⟩ ⟨[], 1⟩ [⟨[], 2⟩] RunError.unsupportedSet [] rfl

/-- C1 counterexample: the push call fails ("boom"), yet the pushed-metrics
counter is still incremented (postPushedMetric runs unconditionally after the
push call), alongside the failed-push increment - refuting that the pushed
counter is incremented exactly when the push succeeds and that the failed
counter is incremented instead. -/
theorem C1_counterexample :
    V1.runQuery ⟨V1.Gauge, "m", "up"⟩ (fun _ _ => Except.ok [⟨[], 1⟩]) 0
        (fun _ => some "boom")
      = (Except.error (RunError.pushFailed "boom"),
         [Event.push (PushCall.gauge "m" 1 []), Event.incPushed "m" "m" "gauge",
          Event.incFailedPushes "failed-push"]) :=
  rfl

/-- C1 amended: for every dispatched series (supported type, nonempty resolved
name, preceded by successfully processed samples), the run records the push
call and one pushed-metrics increment labeled (resolved name, resolved name,
type string) whether or not the push call succeeds: on success those two
events are contributed and the loop continues with the remaining series; on a
push error one failed-push increment is additionally recorded, the error is
propagated, and the remaining series of the tick are abandoned (the failure
outcome does not depend on rest). -/
theorem C1_push_accounting (q : V1.Query)
    (api : String → Nat → Except String (List Sample)) (when : Nat)
    (pushOk : PushCall → Option String) (pre : List Sample) (evs1 : List Event)
    (s : Sample) (rest : List Sample) (c : PushCall)
    (hpre : V1.runSamples q pushOk pre = (Except.ok (), evs1))
    (hapi : api q.query when = Except.ok (pre ++ s :: rest))
    (hn : resolveName q.name s.metric ≠ "")
    (hc : V1.mkPush q.type (resolveName q.name s.metric) s.value (tagsOf q.name s.metric)
        = some c) :
    (pushOk c = none →
      V1.runQuery q api when pushOk
        = ((V1.runSamples q pushOk rest).1,
           evs1 ++ [Event.push c,
             Event.incPushed (resolveName q.name s.metric) (resolveName q.name s.metric)
               (V1.metricTypeString q.type)]
             ++ (V1.runSamples q pushOk rest).2))
    ∧ (∀ msg, pushOk c = some msg →
      V1.runQuery q api when pushOk
        = (Except.error (RunError.pushFailed msg),
           evs1 ++ [Event.push c,
             Event.incPushed (resolveName q.name s.metric) (resolveName q.name s.metric)
               (V1.metricTypeString q.type),
             Event.incFailedPushes "failed-push"])) := by
  constructor
  · intro hsucc
    have hps : V1.processSample q pushOk s
        = (none,
           [Event.push c,
            Event.incPushed (resolveName q.name s.metric) (resolveName q.name s.metric)
              (V1.metricTypeString q.type)]) := by
      rw [v1_processSample_push hn hc]
      unfold pushStep
      rw [hsucc]
    unfold V1.runQuery
    rw [hapi]
    show V1.runSamples q pushOk (pre ++ s :: rest) = _
    rw [v1_runSamples_append (s :: rest) pre evs1 hpre, v1_runSamples_cons_none hps rest,
      List.append_assoc]
  · intro msg hfail
    have hps : V1.processSample q pushOk s
        = (some (RunError.pushFailed msg),
           [Event.push c,
            Event.incPushed (resolveName q.name s.metric) (resolveName q.name s.metric)
              (V1.metricTypeString q.type),
            Event.incFailedPushes "failed-push"]) := by
      rw [v1_processSample_push hn hc]
      unfold pushStep
      rw [hfail]
    unfold V1.runQuery
    rw [hapi]
    show V1.runSamples q pushOk (pre ++ s :: rest) = _
    rw [v1_runSamples_append (s :: rest) pre evs1 hpre, v1_runSamples_cons_some hps rest]

/-- C1 amended witness: the same dispatched gauge series under a succeeding
push client records the push and the pushed-metrics increment, and under a
failing push client records both increments and aborts. -/
theorem C1_push_accounting_witness :
    V1.runQuery ⟨V1.Gauge, "m2", "up2"⟩ (fun _ _ => Except.ok [⟨[], 1⟩]) 0 (fun _ => none)
      = (Except.ok (),
         [Event.push (PushCall.gauge "m2" 1 []), Event.incPushed "m2" "m2" "gauge"])
    ∧ V1.runQuery ⟨V1.Gauge, "m2", "up2"⟩ (fun _ _ => Except.ok [⟨[], 1⟩]) 0
        (fun _ => some "boom")
      = (Except.error (RunError.pushFailed "boom"),
         [Event.push (PushCall.gauge "m2" 1 []), Event.incPushed "m2" "m2" "gauge",
          Event.incFailedPushes "failed-push"]) :=
  ⟨(C1_push_accounting ⟨V1.Gauge, "m2", "up2"⟩ (fun _ _ => Except.ok [⟨[], 1⟩]) 0
      (fun _ => none) [] [] ⟨[], 1⟩ [] (PushCall.gauge "m2" 1 [])
      rfl rfl (by decide) rfl).1 rfl,
   (C1_push_accounting ⟨V1.Gauge, "m2", "up2"⟩ (fun _ _ => Except.ok [⟨[], 1⟩]) 0
      (fun _ => some "boom") [] [] ⟨[], 1⟩ [] (PushCall.gauge "m2" 1 [])
      rfl rfl (by decide) rfl).2 "boom" rfl⟩


/-- C5 counterexample: a set-typed query reaching the dispatcher returns the
unsupported-set error with an empty event trace - no outcome counter is
incremented before the error is propagated. -/
theorem C5_counterexample :
    V1.runQuery ⟨V1.Set, "m", "q0"⟩ (fun _ _ => Except.ok [⟨[], 1⟩]) 0 (fun _ => none)
      = (Except.error RunError.unsupportedSet, []) :=
  rfl

/-- C5 amended: an erroring query run has incremented at least one outcome
counter if and only if the error is not the unsupported-set or unknown-type
error; those two are propagated with no counter increment, while backend
failure, invalid name and push failure are counted. -/
theorem C5_counted (q : V1.Query) (api : String → Nat → Except String (List Sample))
    (when : Nat) (pushOk : PushCall → Option String) (err : RunError) (evs : List Event)
    (h : V1.runQuery q api when pushOk = (Except.error err, evs)) :
    ((err = RunError.unsupportedSet ∨ err = RunError.unknownType)
      ↔ evs.filter isCounterInc = []) := by
  unfold V1.runQuery at h
  cases hapi : api q.query when with
  | error e =>
      rw [hapi] at h
      have he : RunError.queryFailed e = err := Except.error.inj (congrArg Prod.fst h)
      have hevs : [Event.incFailedQueries q.query] = evs := congrArg Prod.snd h
      subst he
      rw [← hevs]
      constructor
      · intro hx
        rcases hx with hx | hx <;> exact RunError.noConfusion hx
      · intro hx
        simp [isCounterInc] at hx
  | ok results =>
      rw [hapi] at h
      exact v1_runSamples_counted results err evs h

/-- C5 amended witness: a counted backend failure. -/
theorem C5_counted_witness :
    (RunError.queryFailed "down" = RunError.unsupportedSet
        ∨ RunError.queryFailed "down" = RunError.unknownType)
      ↔ List.filter isCounterInc [Event.incFailedQueries "up3"] = [] :=
  C5_counted ⟨V1.Gauge, "m3", "up3"⟩ (fun _ _ => Except.error "down") 0 (fun _ => none)
    (RunError.queryFailed "down") [Event.incFailedQueries "up3"] rfl

/-- A one-sample run of a supported-type query issues exactly the push call
mkPush describes, whether or not the push succeeds. -/
theorem v1_single_sample_pushcalls {q : V1.Query} {pushOk : PushCall → Option String}
    {s : Sample} {c : PushCall}
    (hn : resolveName q.name s.metric ≠ "")
    (hc : V1.mkPush q.type (resolveName q.name s.metric) s.value (tagsOf q.name s.metric)
        = some c) :
    pushCallsOf (V1.runSamples q pushOk [s]).2 = [c] := by
  rcases pushStep_cases c (resolveName q.name s.metric) (V1.metricTypeString q.type) pushOk
      with h | ⟨m, h⟩
  · have hps := (v1_processSample_push hn hc).trans h
    rw [v1_runSamples_cons_none hps []]
    rfl
  · have hps := (v1_processSample_push hn hc).trans h
    rw [v1_runSamples_cons_some hps []]
    rfl

/-- C7: the dispatch mapping is exhaustive with no implicit fallback - for a
single returned series with a nonempty resolved name, a Gauge query issues the
gauge push with the rational value, Counter the counter push with the value
truncated to an integer, Histogram the histogram push, Milliseconds the timing
push, and any other type issues no push at all and errors. -/
theorem C7_dispatch (t : V1.QueryType) (name0 qstr : String)
    (api : String → Nat → Except String (List Sample)) (when : Nat)
    (pushOk : PushCall → Option String) (s : Sample)
    (hapi : api qstr when = Except.ok [s])
    (hn : resolveName name0 s.metric ≠ "") :
    (t = V1.Gauge →
      pushCallsOf (V1.runQuery ⟨t, name0, qstr⟩ api when pushOk).2
        = [PushCall.gauge (resolveName name0 s.metric) s.value (tagsOf name0 s.metric)])
    ∧ (t = V1.Counter →
      pushCallsOf (V1.runQuery ⟨t, name0, qstr⟩ api when pushOk).2
        = [PushCall.count (resolveName name0 s.metric) (truncInt s.value)
            (tagsOf name0 s.metric)])
    ∧ (t = V1.Histogram →
      pushCallsOf (V1.runQuery ⟨t, name0, qstr⟩ api when pushOk).2
        = [PushCall.histogram (resolveName name0 s.metric) s.value (tagsOf name0 s.metric)])
    ∧ (t = V1.Milliseconds →
      pushCallsOf (V1.runQuery ⟨t, name0, qstr⟩ api when pushOk).2
        = [PushCall.timeInMilliseconds (resolveName name0 s.metric) s.value
            (tagsOf name0 s.metric)])
    ∧ (t ≠ V1.Gauge → t ≠ V1.Counter → t ≠ V1.Histogram → t ≠ V1.Milliseconds →
      pushCallsOf (V1.runQuery ⟨t, name0, qstr⟩ api when pushOk).2 = []
      ∧ ∃ e, (V1.runQuery ⟨t, name0, qstr⟩ api when pushOk).1 = Except.error e) := by
  have hrun : V1.runQuery ⟨t, name0, qstr⟩ api when pushOk
      = V1.runSamples ⟨t, name0, qstr⟩ pushOk [s] := by
    unfold V1.runQuery
    rw [hapi]
  refine ⟨?_, ?_, ?_, ?_, ?_⟩
  · intro ht
    subst ht
    rw [hrun]
    exact v1_single_sample_pushcalls hn rfl
  · intro ht
    subst ht
    rw [hrun]
    exact v1_single_sample_pushcalls hn rfl
  · intro ht
    subst ht
    rw [hrun]
    exact v1_single_sample_pushcalls hn rfl
  · intro ht
    subst ht
    rw [hrun]
    exact v1_single_sample_pushcalls hn rfl
  · intro h1 h2 h3 h4
    by_cases h5 : t = V1.Set
    · have hps := @v1_processSample_set ⟨t, name0, qstr⟩ pushOk s hn h5
      rw [hrun, v1_runSamples_cons_some hps []]
      exact ⟨rfl, ⟨RunError.unsupportedSet, rfl⟩⟩
    · have hps := @v1_processSample_unknown ⟨t, name0, qstr⟩ pushOk s hn h1 h2 h3 h4 h5
      rw [hrun, v1_runSamples_cons_some hps []]
      exact ⟨rfl, ⟨RunError.unknownType, rfl⟩⟩

/-- C7 witness: a counter query truncates the value and issues one count
push. -/
theorem C7_dispatch_witness :
    pushCallsOf (V1.runQuery ⟨V1.Counter, "reqs", "sum"⟩
        (fun _ _ => Except.ok [⟨[("k", "v")], 5⟩]) 0 (fun _ => none)).2
      = [PushCall.count "reqs" (truncInt 5) ["k:v"]] :=
  (C7_dispatch V1.Counter "reqs" "sum" (fun _ _ => Except.ok [⟨[("k", "v")], 5⟩]) 0
    (fun _ => none) ⟨[("k", "v")], 5⟩ rfl (by decide)).2.1 rfl

/-- C10: for the four supported query types, the yaml-version runQuery and the
flag-version run_query are behaviorally equivalent - same backend result, same
push calls, same counter increments, same success-or-error outcome. -/
theorem C10_equiv (t1 : V1.QueryType) (t2 : V2.QueryType)
    (h : (t1 = V1.Gauge ∧ t2 = V2.Gauge) ∨ (t1 = V1.Counter ∧ t2 = V2.Counter)
      ∨ (t1 = V1.Histogram ∧ t2 = V2.Histogram)
      ∨ (t1 = V1.Milliseconds ∧ t2 = V2.Milliseconds))
    (name qstr : String) (api : String → Nat → Except String (List Sample)) (when : Nat)
    (pushOk : PushCall → Option String) :
    V1.runQuery ⟨t1, name, qstr⟩ api when pushOk
      = V2.run_query ⟨t2, name, qstr⟩ api when pushOk := by
  rcases h with ⟨h1, h2⟩ | ⟨h1, h2⟩ | ⟨h1, h2⟩ | ⟨h1, h2⟩ <;> subst h1 <;> subst h2
  · exact v10_run_query_eq rfl (v10_processSample_gauge name qstr pushOk) api when
  · exact v10_run_query_eq rfl (v10_processSample_counter name qstr pushOk) api when
  · exact v10_run_query_eq rfl (v10_processSample_histogram name qstr pushOk) api when
  · exact v10_run_query_eq rfl (v10_processSample_milliseconds name qstr pushOk) api when

/-- C10 witness: the two runners agree on a concrete gauge run. -/
theorem C10_equiv_witness :
    V1.runQuery ⟨V1.Gauge, "w", "upw"⟩ (fun _ _ => Except.ok [⟨[("a", "b")], 1⟩]) 0
        (fun _ => none)
      = V2.run_query ⟨V2.Gauge, "w", "upw"⟩ (fun _ _ => Except.ok [⟨[("a", "b")], 1⟩]) 0
        (fun _ => none) :=
  C10_equiv V1.Gauge V2.Gauge (Or.inl ⟨rfl, rfl⟩) "w" "upw"
    (fun _ _ => Except.ok [⟨[("a", "b")], 1⟩]) 0 (fun _ => none)

/-- C4 counterexample: the yaml version performs no load-time type validation,
so a set-typed query reaches the Query Runner - the tick runs it, it errors at
runtime per sample (first conjunct), and with an empty result it is silently
accepted (second conjunct), contradicting rejection at configuration-load
time. -/
theorem C4_counterexample :
    V1.startQuerying [⟨V1.Set, "n", "up"⟩] (fun _ _ => Except.ok [⟨[], 1⟩]) 0
        (fun _ => none)
      = [(Except.error RunError.unsupportedSet, [])]
    ∧ V1.startQuerying [⟨V1.Set, "n", "up"⟩] (fun _ _ => Except.ok []) 0 (fun _ => none)
      = [(Except.ok (), [])] :=
  ⟨rfl, rfl⟩

/-- C4 amended: the flag-based loader does reject a set-typed query at
parse time with the descriptive error, never appending it to the query list -
for every flag value of the shape set:name:query. -/
theorem C4_flag_rejects_set (flags : V2.Queries) (a b : String) :
    V2.Queries.Set flags ("set:" ++ a ++ ":" ++ b)
      = some (Except.error V2.ConfigError.setUnsupported) := by
  have hdata : ("set:" ++ a ++ ":" ++ b).toList
      = 's' :: 'e' :: 't' :: ':' :: (a.toList ++ ':' :: b.toList) := by
    show ("set:" ++ a ++ ":" ++ b).data = 's' :: 'e' :: 't' :: ':' :: (a.data ++ ':' :: b.data)
    rw [String.data_append, String.data_append, String.data_append]
    show (['s', 'e', 't', ':'] ++ a.data ++ [':']) ++ b.data = _
    simp
  have h1 : V2.breakColon ('s' :: 'e' :: 't' :: ':' :: (a.toList ++ ':' :: b.toList))
      = (['s', 'e', 't'], some (a.toList ++ ':' :: b.toList)) := rfl
  obtain ⟨x, y, hxy⟩ := @breakColon_some (a.toList ++ ':' :: b.toList) (by simp)
  have hsplit : V2.splitNColon3 ("set:" ++ a ++ ":" ++ b)
      = ["set", String.mk x, String.mk y] := by
    unfold V2.splitNColon3
    rw [hdata]
    simp only [h1, hxy]
  unfold V2.Queries.Set
  rw [hsplit]
  rfl

/-- C4 amended witness: the concrete flag value set:x:up is rejected. -/
theorem C4_flag_rejects_set_witness :
    V2.Queries.Set [] "set:x:up" = some (Except.error V2.ConfigError.setUnsupported) :=
  C4_flag_rejects_set [] "x" "up"
